import Mathlib

/-!
Verification development for the salary-survey cleaning pipeline
(title/location/rating normalization and salary standardization).

The regex substitutions of the source (`pandas.Series.str.replace(...,
regex=True)`) are embedded by a small backtracking matcher over `List Char`
covering exactly the constructs the source's patterns use: literal
characters, `.`, `*` on a single-character atom, the word-boundary
assertion, the classes `\w` and `\s`, and one negative lookahead.
-/

attribute [local semireducible] Rat.mul Rat.inv Rat.add Rat.sub Rat.ofScientific

def apos : Char := Char.ofNat 39

inductive CAtom where
  | lit : Char → CAtom
  | dot : CAtom
  | wcls : CAtom
  | scls : CAtom
deriving DecidableEq

inductive RAtom where
  | ch : CAtom → RAtom
  | wb : RAtom
  | star : CAtom → RAtom
  | neg : List CAtom → RAtom
deriving DecidableEq

def isWordChar (c : Char) : Bool := c.isAlphanum || c == '_'

def isSpaceChar (c : Char) : Bool :=
  c == ' ' || c == '\t' || c == '\n' || c == '\r' || c == Char.ofNat 11 || c == Char.ofNat 12

def catomMatch : CAtom → Char → Bool
  | CAtom.lit a, c => a == c
  | CAtom.dot, c => c != '\n'
  | CAtom.wcls, c => isWordChar c
  | CAtom.scls, c => isSpaceChar c

def prevWord : Option Char → Bool
  | none => false
  | some c => isWordChar c

def headWord : List Char → Bool
  | [] => false
  | c :: _ => isWordChar c

def boundary (prev : Option Char) (s : List Char) : Bool := prevWord prev != headWord s

def lookMatch : List CAtom → List Char → Bool
  | [], _ => true
  | _ :: _, [] => false
  | a :: as, c :: cs => catomMatch a c && lookMatch as cs

def starRun (f : Option Char → List Char → Option (List Char)) (prev : Option Char)
    (s : List Char) : Nat → Option (List Char)
  | 0 => f prev s
  | Nat.succ k =>
      match f ((s.take (k + 1)).getLast?) (s.drop (k + 1)) with
      | some r => some r
      | none => starRun f prev s k

def mseq : List RAtom → Option Char → List Char → Option (List Char)
  | [], _, s => some s
  | RAtom.wb :: ps, prev, s => if boundary prev s then mseq ps prev s else none
  | RAtom.neg ns :: ps, prev, s => if lookMatch ns s then none else mseq ps prev s
  | RAtom.star a :: ps, prev, s => starRun (mseq ps) prev s ((s.takeWhile (catomMatch a)).length)
  | RAtom.ch a :: ps, prev, s =>
      match s with
      | [] => none
      | c :: cs => if catomMatch a c then mseq ps (some c) cs else none

def subFuel (p : List RAtom) (rep : List Char) : Nat → Option Char → List Char → List Char
  | 0, _, s => s
  | Nat.succ _, prev, [] =>
      match mseq p prev [] with
      | some _ => rep
      | none => []
  | Nat.succ n, prev, c :: cs =>
      match mseq p prev (c :: cs) with
      | none => c :: subFuel p rep n (some c) cs
      | some rest =>
          if (c :: cs).length - rest.length = 0 then
            rep ++ c :: subFuel p rep n (some c) cs
          else
            rep ++ subFuel p rep n (((c :: cs).take ((c :: cs).length - rest.length)).getLast?) rest

def applySub (p : List RAtom) (rep : List Char) (s : List Char) : List Char :=
  subFuel p rep (s.length + 1) none s

def litsOf (s : String) : List RAtom := s.data.map (fun c => RAtom.ch (CAtom.lit c))

def dotStar : RAtom := RAtom.star CAtom.dot

def replace_terms (rules : List (List RAtom × String)) (s : String) : String :=
  ⟨ rules.foldl (fun acc pr => applySub pr.1 pr.2.data acc) s.data ⟩

/-!
Substitution dictionaries, transcribed pattern by pattern from the source's
`replacements_title`, `replacements_location` and
`replacements_performance_rating` (in insertion order, which is the order
`replace_terms` applies them in).
-/

def replacements_title : List (List RAtom × String) := [
  ([ RAtom.wb ] ++ litsOf "x" ++ [ RAtom.wb ], ""),
  ([ RAtom.wb ] ++ litsOf "position in ii tier" ++ [ RAtom.wb ], ""),
  ([ dotStar ] ++ litsOf "can" ++ [ RAtom.ch (CAtom.lit apos) ] ++ litsOf "t say (loss of anonimity)" ++ [ dotStar ], ""),
  ([ RAtom.wb ] ++ litsOf "choose not to disclose" ++ [ RAtom.wb ], ""),
  ([ RAtom.wb ] ++ litsOf "senior i" ++ [ RAtom.wb ], ""),
  ([ RAtom.wb ] ++ litsOf "sr.", "senior"),
  ([ RAtom.wb ] ++ litsOf "senor", "senior"),
  ([ RAtom.wb ] ++ litsOf "1", "i"),
  ([ RAtom.wb ] ++ litsOf "2", "ii"),
  ([ dotStar ] ++ litsOf "senior software egr i.-" ++ [ dotStar ], "senior software engineer i"),
  ([ dotStar ] ++ litsOf "associate pm (my range is on the same scale as pm, but not my actual title" ++ [ RAtom.star (CAtom.lit ')') ], "associate pm"),
  ([ dotStar ] ++ litsOf "principl" ++ [ RAtom.star (CAtom.lit 'e') ], "principal"),
  ([ dotStar ] ++ litsOf "3d artist(character" ++ [ RAtom.star (CAtom.lit ')') ], "3d artist (character artist)"),
  ([ dotStar ] ++ litsOf "ui /ux designe" ++ [ RAtom.star (CAtom.lit 'r') ], "ui/ux designer"),
  ([ dotStar ] ++ litsOf "associate software development engineer in tes" ++ [ RAtom.star (CAtom.lit 't') ], "associate software developer engineer in test"),
  ([ RAtom.wb ] ++ litsOf "qa" ++ [ RAtom.wb, RAtom.neg [ CAtom.scls, CAtom.wcls ] ], "qa analyst")
]

def replacements_location : List (List RAtom × String) := [
  ([ dotStar ] ++ litsOf "los angeles center studios" ++ [ dotStar ], "los angeles"),
  ([ dotStar ] ++ litsOf "work from home - virgini" ++ [ RAtom.star (CAtom.lit 'a') ], "virginia")
]

def replacements_performance_rating : List (List RAtom × String) := [
  ([ dotStar ] ++ litsOf "developing" ++ [ dotStar ], "1-developing"),
  ([ dotStar ] ++ litsOf "successful" ++ [ dotStar ], "2-successful"),
  ([ dotStar ] ++ litsOf "high" ++ [ dotStar ], "3-high"),
  ([ dotStar ] ++ litsOf "top" ++ [ dotStar ], "4-top")
]

/-!
The data model: one survey record, with the CSV columns of the source
(`timestamp, status, current_title, current_salary, salary_type,
percent_incr, other_info, location, performance_rating`) plus the two
derived columns the pipeline writes (`adjusted_title`, `adjusted_salary`).
Missing values (pandas `NaN`) are `none`; numeric cells are rationals.
-/

structure Row where
  timestamp : Option String
  status : Option String
  current_title : Option String
  adjusted_title : Option String
  current_salary : Option ℚ
  adjusted_salary : Option ℚ
  salary_type : Option String
  percent_incr : Option ℚ
  other_info : Option String
  location : Option String
  performance_rating : Option String
deriving DecidableEq

def lowerStr (s : String) : String := ⟨ s.data.map Char.toLower ⟩

/-- Row-wise salary adjustment, from the source's `adjust_salary`:
`year` keeps the reported amount, `weekly` multiplies by 52, `hour`
multiplies by 40 and then 52, anything else gets the sentinel 0. `Option.map`
models NaN propagation of the float arithmetic. -/
def adjust_salary (r : Row) : Option ℚ :=
  if r.salary_type = some "year" then r.current_salary
  else if r.salary_type = some "weekly" then r.current_salary.map (fun v => v * 52)
  else if r.salary_type = some "hour" then r.current_salary.map (fun v => v * 40 * 52)
  else some 0

/-- Keep-condition of the `adjusted_salary < 100` drop: pandas drops the rows
where the comparison is `True`, and a missing value compares `False`. -/
def keep100 (r : Row) : Bool :=
  match r.adjusted_salary with
  | some v => !(decide (v < 100))
  | none => true

def tAdjTitleLower (r : Row) : Row := { r with adjusted_title := r.current_title.map lowerStr }

def tAdjTitleRules (r : Row) : Row :=
  { r with adjusted_title := r.adjusted_title.map (replace_terms replacements_title) }

def tLocLower (r : Row) : Row := { r with location := r.location.map lowerStr }

def tLocRules (r : Row) : Row :=
  { r with location := r.location.map (replace_terms replacements_location) }

def tRateLower (r : Row) : Row :=
  { r with performance_rating := r.performance_rating.map lowerStr }

def tRateRules (r : Row) : Row :=
  { r with performance_rating := r.performance_rating.map (replace_terms replacements_performance_rating) }

def tSalInit (r : Row) : Row := { r with adjusted_salary := r.current_salary }

def tSalAdjust (r : Row) : Row := { r with adjusted_salary := adjust_salary r }

/-- First cleaning step of the source: the two `dropna` calls removing rows
without `current_salary` or without `current_title`. -/
def dropna_salary_title (rows : List Row) : List Row :=
  (rows.filter (fun r => r.current_salary.isSome)).filter (fun r => r.current_title.isSome)

/-- Per-record transformation accumulated over the whole pipeline, in source
order: lowercase title, title rules, lowercase location, location rules,
lowercase rating, rating rules, initialize `adjusted_salary`, then overwrite
it with `adjust_salary`. -/
def transform_row (r : Row) : Row :=
  tSalAdjust (tSalInit (tRateRules (tRateLower (tLocRules (tLocLower (tAdjTitleRules (tAdjTitleLower r)))))))

/-- The cleaned table `df_blizzard_salary_act`, as built by the source from
the loaded table: dropna on salary and title, title normalization, location
lowercasing, the `laid off 3/16` row drop, location substitutions, rating
normalization, salary adjustment, the `< 100` drop and the final dropna on
`adjusted_salary`. -/
def df_blizzard_salary_act (rows : List Row) : List Row :=
  (((((((((((dropna_salary_title rows).map
    tAdjTitleLower).map
    tAdjTitleRules).map
    tLocLower).filter
    (fun r => !(decide (r.location = some "laid off 3/16")))).map
    tLocRules).map
    tRateLower).map
    tRateRules).map
    tSalInit).map
    tSalAdjust).filter
    keep100).filter
    (fun r => r.adjusted_salary.isSome)

/-! Concrete records used in scenario conjuncts and witnesses. -/

def emptyRow : Row :=
  { timestamp := none, status := none, current_title := none, adjusted_title := none,
    current_salary := none, adjusted_salary := none, salary_type := none,
    percent_incr := none, other_info := none, location := none, performance_rating := none }

def hourRow : Row :=
  { emptyRow with
    timestamp := some "t1", status := some "full time",
    current_title := some "game master", current_salary := some (3029 / 100 : ℚ),
    salary_type := some "hour" }

def yearRow50 : Row :=
  { emptyRow with
    current_title := some "tester", current_salary := some (50 : ℚ),
    salary_type := some "year" }

def weeklyRow1625 : Row :=
  { emptyRow with
    current_title := some "producer", current_salary := some (1625 : ℚ),
    salary_type := some "weekly" }

def weekRow1625 : Row :=
  { emptyRow with
    current_title := some "producer", current_salary := some (1625 : ℚ),
    salary_type := some "week" }

def seRow : Row :=
  { emptyRow with
    timestamp := some "t2", current_title := some "software engineer",
    current_salary := some (104000 : ℚ), salary_type := some "year" }

def laRow : Row :=
  { emptyRow with
    current_title := some "analyst", current_salary := some (120000 : ℚ),
    salary_type := some "year", location := some "Los Angeles Center Studios" }

def passRow : Row :=
  { emptyRow with
    timestamp := some "t3", status := some "contractor",
    current_title := some "producer", current_salary := some (90000 : ℚ),
    salary_type := some "year", percent_incr := some (5 : ℚ), other_info := some "n",
    location := some "austin", performance_rating := some "Successful" }

def contractorRow : Row :=
  { emptyRow with
    current_title := some "writer", current_salary := some (90000 : ℚ),
    salary_type := some "contractor" }

/-! Provenance of a record through the cleaned table. -/

theorem mem_act (rows : List Row) (r : Row) (hr : r ∈ df_blizzard_salary_act rows) :
    ∃ r₀, r₀ ∈ rows ∧ r₀.current_salary.isSome = true ∧ r₀.current_title.isSome = true ∧
      r₀.location.map lowerStr ≠ some "laid off 3/16" ∧ r = transform_row r₀ := by
  unfold df_blizzard_salary_act dropna_salary_title at hr
  obtain ⟨h1, _⟩ := List.mem_filter.mp hr
  obtain ⟨h2, _⟩ := List.mem_filter.mp h1
  obtain ⟨xJ, h3, rfl⟩ := List.mem_map.mp h2
  obtain ⟨xI, h4, rfl⟩ := List.mem_map.mp h3
  obtain ⟨xH, h5, rfl⟩ := List.mem_map.mp h4
  obtain ⟨xG, h6, rfl⟩ := List.mem_map.mp h5
  obtain ⟨xF, h7, rfl⟩ := List.mem_map.mp h6
  obtain ⟨h8, hloc⟩ := List.mem_filter.mp h7
  obtain ⟨xD, h9, rfl⟩ := List.mem_map.mp h8
  obtain ⟨xC, h10, rfl⟩ := List.mem_map.mp h9
  obtain ⟨xB, h11, rfl⟩ := List.mem_map.mp h10
  obtain ⟨h12, htitle⟩ := List.mem_filter.mp h11
  obtain ⟨h13, hsal⟩ := List.mem_filter.mp h12
  refine ⟨xB, h13, hsal, htitle, ?_, rfl⟩
  simpa [tLocLower, tAdjTitleRules, tAdjTitleLower] using hloc

/-- C1: for every record of the cleaned table, salary type `hour` means the
adjusted salary is the reported salary times 40 times 52 (equivalently times
2080), and salary type `year` means the adjusted salary equals the reported
salary; on the concrete hourly record with salary 30.29 the adjustment gives
63003.20 (= 315016/5) exactly. -/
theorem adjust_salary_hour_year (rows : List Row) (r : Row)
    (hr : r ∈ df_blizzard_salary_act rows) :
    (r.salary_type = some "hour" →
      r.adjusted_salary = r.current_salary.map (fun v => v * 40 * 52) ∧
      r.adjusted_salary = r.current_salary.map (fun v => v * 2080)) ∧
    (r.salary_type = some "year" → r.adjusted_salary = r.current_salary) ∧
    adjust_salary hourRow = some (315016 / 5 : ℚ) := by
  obtain ⟨r₀, -, -, -, -, rfl⟩ := mem_act rows r hr
  have hself : (transform_row r₀).adjusted_salary = adjust_salary (transform_row r₀) := rfl
  refine ⟨?_, ?_, by decide⟩
  · intro h
    rw [hself]
    cases hc : (transform_row r₀).current_salary with
    | none => constructor <;> simp [adjust_salary, h, hc]
    | some v =>
        constructor <;> simp [adjust_salary, h, hc] <;> ring
  · intro h
    rw [hself]
    simp [adjust_salary, h]

/-- C1 witness: the concrete hourly row satisfies the hour-branch formula. -/
theorem adjust_salary_hour_year_witness :
    (transform_row hourRow).adjusted_salary =
      (transform_row hourRow).current_salary.map (fun v => v * 2080) :=
  ((adjust_salary_hour_year [ hourRow ] (transform_row hourRow) (by decide)).1 rfl).2

/-- C2 counterexample: the code's weekly branch matches the label `weekly`,
not `week`: the 1625-weekly record gets 84500 (not the claimed 0), and a
record labelled exactly `week` falls to the default branch and gets 0 (not
the claimed 1625·52). -/
theorem adjust_salary_weekly_week_counterexample :
    adjust_salary weeklyRow1625 = some (84500 : ℚ) ∧
    adjust_salary weeklyRow1625 ≠ some (0 : ℚ) ∧
    adjust_salary weekRow1625 = some (0 : ℚ) ∧
    adjust_salary weekRow1625 ≠ some ((1625 : ℚ) * 52) := by
  refine ⟨by decide, by decide, by decide, by decide⟩

/-- C2 amended: the Salary Standardizer's weekly branch matches the label
`weekly` exactly, multiplying by 52; a record whose salary type is exactly
`week` is not in the defined mapping, falls to the default branch, receives
the sentinel 0, and is dropped by the plausibility filter. -/
theorem adjust_salary_weekly_branch (r : Row) :
    (r.salary_type = some "weekly" →
      adjust_salary r = r.current_salary.map (fun v => v * 52)) ∧
    (r.salary_type = some "week" →
      adjust_salary r = some 0 ∧
      ∀ (l : List Row) (x : Row), x.adjusted_salary = adjust_salary r →
        x ∉ l.filter keep100) := by
  constructor
  · intro h
    simp [adjust_salary, h]
  · intro h
    have h0 : adjust_salary r = some 0 := by simp [adjust_salary, h]
    refine ⟨h0, ?_⟩
    intro l x hx hmem
    obtain ⟨-, hk⟩ := List.mem_filter.mp hmem
    rw [h0] at hx
    simp [keep100, hx] at hk

/-- C2 amended witness: the weekly branch on the concrete 1625-weekly row. -/
theorem adjust_salary_weekly_branch_witness :
    adjust_salary weeklyRow1625 = weeklyRow1625.current_salary.map (fun v => v * 52) :=
  (adjust_salary_weekly_branch weeklyRow1625).1 rfl

/-- C3: every record of the cleaned table has an adjusted salary of at least
100 (the filter runs after the adjustment is computed), and the concrete
record with reported salary 50 per year is excluded. -/
theorem output_salary_threshold (rows : List Row) (r : Row)
    (hr : r ∈ df_blizzard_salary_act rows) :
    (∃ v, r.adjusted_salary = some v ∧ (100 : ℚ) ≤ v) ∧
    df_blizzard_salary_act [ yearRow50 ] = [] := by
  refine ⟨?_, by decide⟩
  unfold df_blizzard_salary_act at hr
  obtain ⟨h1, hsome⟩ := List.mem_filter.mp hr
  obtain ⟨-, hkeep⟩ := List.mem_filter.mp h1
  obtain ⟨v, hv⟩ := Option.isSome_iff_exists.mp hsome
  refine ⟨v, hv, ?_⟩
  simp [keep100, hv] at hkeep
  exact hkeep

/-- C4: the Title Normalizer is not idempotent. On `senior 1` — which the
source's own commentary lists as an incomplete entry to blank out — one pass
produces `senior i` (the `\bsenior i\b → empty` rule has already run before
the `\b1 → i` rule creates the string), and a second pass erases it. -/
theorem title_normalizer_senior1_bug :
    replace_terms replacements_title "senior 1" = "senior i" ∧
    replace_terms replacements_title (replace_terms replacements_title "senior 1") = "" ∧
    replace_terms replacements_title (replace_terms replacements_title "senior 1") ≠
      replace_terms replacements_title "senior 1" := by
  refine ⟨by decide, by decide, by decide⟩

/-- C7: a record whose salary type is none of `year`, `weekly`, `hour` gets
the sentinel adjusted salary 0 (the function is total, no failure path), and
any row carrying that sentinel is excluded by the plausibility filter. -/
theorem unknown_salary_type_sentinel (r : Row)
    (h1 : r.salary_type ≠ some "year") (h2 : r.salary_type ≠ some "weekly")
    (h3 : r.salary_type ≠ some "hour") :
    adjust_salary r = some 0 ∧
    ∀ (l : List Row) (x : Row), x.adjusted_salary = adjust_salary r →
      x ∉ l.filter keep100 := by
  have h0 : adjust_salary r = some 0 := by simp [adjust_salary, h1, h2, h3]
  refine ⟨h0, ?_⟩
  intro l x hx hmem
  obtain ⟨-, hk⟩ := List.mem_filter.mp hmem
  rw [h0] at hx
  simp [keep100, hx] at hk

/-- C7 witness: concrete unrecognized salary type. -/
theorem unknown_salary_type_sentinel_witness :
    adjust_salary contractorRow = some 0 :=
  (unknown_salary_type_sentinel contractorRow (by decide) (by decide) (by decide)).1

/-- C8: the first cleaning step keeps exactly the records that have both a
reported salary and a reported title; every record lacking one of them is
silently removed there, before any normalization stage runs. -/
theorem dropna_membership (rows : List Row) (r : Row) :
    r ∈ dropna_salary_title rows ↔
      r ∈ rows ∧ r.current_salary.isSome = true ∧ r.current_title.isSome = true := by
  simp only [dropna_salary_title, List.mem_filter]
  tauto

def laidOffRow : Row :=
  { emptyRow with
    current_title := some "cook", current_salary := some (50000 : ℚ),
    salary_type := some "year", location := some "Laid off 3/16" }

/-- C6: no record whose lowercased location equals the sentinel `laid off
3/16` appears in the cleaned table: every output record descends from an
input record whose lowercased location differs from the sentinel (the drop is
checked on the lowercased, pre-substitution location, and removes the whole
record, as the concrete conjunct shows). -/
theorem laid_off_rows_dropped (rows : List Row) (r : Row)
    (hr : r ∈ df_blizzard_salary_act rows) :
    (∃ r₀, r₀ ∈ rows ∧ r₀.location.map lowerStr ≠ some "laid off 3/16" ∧
      r = transform_row r₀) ∧
    df_blizzard_salary_act [ laidOffRow ] = [] := by
  obtain ⟨r₀, hm, -, -, hloc, rfl⟩ := mem_act rows r hr
  exact ⟨⟨r₀, hm, hloc, rfl⟩, by decide⟩

/-- C6 witness: the Los Angeles record survives and has a non-sentinel
provenance. -/
theorem laid_off_rows_dropped_witness :
    ∃ r₀, r₀ ∈ [ laRow ] ∧ r₀.location.map lowerStr ≠ some "laid off 3/16" ∧
      transform_row laRow = transform_row r₀ :=
  (laid_off_rows_dropped [ laRow ] (transform_row laRow) (by decide)).1

/-- C9: every record of the cleaned table keeps its load-time `timestamp`,
`status`, `current_title`, `current_salary`, `percent_incr` and `other_info`
unchanged; the pipeline only writes the derived columns. -/
theorem passthrough_fields_preserved (rows : List Row) (r : Row)
    (hr : r ∈ df_blizzard_salary_act rows) :
    ∃ r₀, r₀ ∈ rows ∧ r.timestamp = r₀.timestamp ∧ r.status = r₀.status ∧
      r.current_title = r₀.current_title ∧ r.current_salary = r₀.current_salary ∧
      r.percent_incr = r₀.percent_incr ∧ r.other_info = r₀.other_info := by
  obtain ⟨r₀, hm, -, -, -, rfl⟩ := mem_act rows r hr
  refine ⟨r₀, hm, ?_, ?_, ?_, ?_, ?_, ?_⟩ <;>
    simp [transform_row, tSalAdjust, tSalInit, tRateRules, tRateLower, tLocRules,
      tLocLower, tAdjTitleRules, tAdjTitleLower]

/-- C9 witness: the pass-through record with all optional fields present. -/
theorem passthrough_fields_preserved_witness :
    ∃ r₀, r₀ ∈ [ passRow ] ∧ (transform_row passRow).timestamp = r₀.timestamp ∧
      (transform_row passRow).status = r₀.status ∧
      (transform_row passRow).current_title = r₀.current_title ∧
      (transform_row passRow).current_salary = r₀.current_salary ∧
      (transform_row passRow).percent_incr = r₀.percent_incr ∧
      (transform_row passRow).other_info = r₀.other_info :=
  passthrough_fields_preserved [ passRow ] (transform_row passRow) (by decide)

/-- Direct description of one `\bD → rep` digit rule, following the claim's
words: a copy of the input in which each occurrence of the digit standing at
the start of a word is replaced by `rep`, all other characters kept. -/
def wbScan (c : Char) (rep : List Char) : Option Char → List Char → List Char
  | _, [] => []
  | prev, d :: ds =>
      if (!prevWord prev) && (c == d) then rep ++ wbScan c rep (some d) ds
      else d :: wbScan c rep (some d) ds

theorem subFuel_wbDigit (c : Char) (rep : List Char) (hc : isWordChar c = true) :
    ∀ (n : Nat) (prev : Option Char) (s : List Char), s.length < n →
      subFuel [ RAtom.wb, RAtom.ch (CAtom.lit c) ] rep n prev s = wbScan c rep prev s := by
  intro n
  induction n with
  | zero => intro prev s h; exact absurd h (Nat.not_lt_zero _)
  | succ m ih =>
      intro prev s hlen
      cases s with
      | nil =>
          have hm : mseq [ RAtom.wb, RAtom.ch (CAtom.lit c) ] prev [] = none := by
            simp [mseq]
          simp [subFuel, hm, wbScan]
      | cons d ds =>
          have hds : ds.length < m := Nat.lt_of_succ_lt_succ hlen
          cases hcd : (c == d) with
          | true =>
              have hdc : c = d := eq_of_beq hcd
              cases hpw : prevWord prev with
              | false =>
                  have hb : boundary prev (d :: ds) = true := by
                    simp [boundary, headWord, hpw, ← hdc, hc]
                  have hm : mseq [ RAtom.wb, RAtom.ch (CAtom.lit c) ] prev (d :: ds) =
                      some ds := by
                    simp [mseq, hb, catomMatch, hcd]
                  simp [subFuel, hm, wbScan, hpw, hcd, ih (some d) ds hds, List.getLast?]
              | true =>
                  have hb : boundary prev (d :: ds) = false := by
                    simp [boundary, headWord, hpw, ← hdc, hc]
                  have hm : mseq [ RAtom.wb, RAtom.ch (CAtom.lit c) ] prev (d :: ds) =
                      none := by
                    simp [mseq, hb]
                  simp [subFuel, hm, wbScan, hpw, hcd, ih (some d) ds hds]
          | false =>
              have hm : mseq [ RAtom.wb, RAtom.ch (CAtom.lit c) ] prev (d :: ds) = none := by
                cases hb : boundary prev (d :: ds) with
                | true => simp [mseq, hb, catomMatch, hcd]
                | false => simp [mseq, hb]
              simp [subFuel, hm, wbScan, hcd, ih (some d) ds hds]

/-- C10: the two level-digit title rules are exactly the word-start digit
substitutions described by `wbScan` — a `1` or `2` at the start of a word
becomes `i` or `ii`, the remaining characters are kept — and on the concrete
titles: `engineer 10` becomes `engineer i0`, `tier 12` becomes `tier i2`
(the substituted `i` suppresses the boundary before `2`), and `v2` is left
untouched. -/
theorem level_digit_rules_word_start :
    (([ RAtom.wb ] ++ litsOf "1", ("i" : String)) ∈ replacements_title) ∧
    (([ RAtom.wb ] ++ litsOf "2", ("ii" : String)) ∈ replacements_title) ∧
    (∀ (prev : Option Char) (s : List Char),
      subFuel [ RAtom.wb, RAtom.ch (CAtom.lit '1') ] [ 'i' ] (s.length + 1) prev s =
        wbScan '1' [ 'i' ] prev s) ∧
    (∀ (prev : Option Char) (s : List Char),
      subFuel [ RAtom.wb, RAtom.ch (CAtom.lit '2') ] [ 'i', 'i' ] (s.length + 1) prev s =
        wbScan '2' [ 'i', 'i' ] prev s) ∧
    replace_terms replacements_title "engineer 10" = "engineer i0" ∧
    replace_terms replacements_title "tier 12" = "tier i2" ∧
    replace_terms replacements_title "v2" = "v2" := by
  refine ⟨by decide, by decide, ?_, ?_, by decide, by decide, by decide⟩
  · intro prev s
    exact subFuel_wbDigit '1' [ 'i' ] (by decide) (s.length + 1) prev s (Nat.lt_succ_self _)
  · intro prev s
    exact subFuel_wbDigit '2' [ 'i', 'i' ] (by decide) (s.length + 1) prev s (Nat.lt_succ_self _)

/-- C3 witness: a surviving concrete record meets the threshold. -/
theorem output_salary_threshold_witness :
    ∃ v, (transform_row seRow).adjusted_salary = some v ∧ (100 : ℚ) ≤ v :=
  (output_salary_threshold [ seRow ] (transform_row seRow) (by decide)).1

/-!
Characterization of a `.*keyword.*` substitution: on a newline-free string it
replaces the whole string by the replacement exactly when the keyword occurs
as a contiguous substring, and otherwise leaves the string unchanged.
-/

def leadsWith : List Char → List Char → Bool
  | [], _ => true
  | _ :: _, [] => false
  | a :: as, b :: bs => a == b && leadsWith as bs

def containsSeq (kw : List Char) : List Char → Bool
  | [] => leadsWith kw []
  | c :: cs => leadsWith kw (c :: cs) || containsSeq kw cs

def dropsContain (kw s : List Char) : Nat → Bool
  | 0 => leadsWith kw s
  | Nat.succ k => leadsWith kw (s.drop (k + 1)) || dropsContain kw s k

theorem takeWhile_all (p : Char → Bool) :
    ∀ (s : List Char), (∀ c ∈ s, p c = true) → s.takeWhile p = s := by
  intro s
  induction s with
  | nil => intro h; rfl
  | cons c cs ih =>
      intro h
      rw [List.takeWhile_cons, h c (List.mem_cons_self c cs)]
      simp [ih (fun d hd => h d (List.mem_cons_of_mem c hd))]

theorem dotMatch_all (s : List Char) (hnl : '\n' ∉ s) :
    s.takeWhile (catomMatch CAtom.dot) = s := by
  refine takeWhile_all _ s (fun c hc => ?_)
  simp only [catomMatch, bne_iff_ne, ne_eq, decide_eq_true_eq]
  intro heq
  exact hnl (heq ▸ hc)

theorem mseq_starDot (prev : Option Char) (s : List Char) (hnl : '\n' ∉ s) :
    mseq [ dotStar ] prev s = some [] := by
  cases s with
  | nil => rfl
  | cons c cs =>
      show starRun (mseq []) prev (c :: cs) (((c :: cs).takeWhile (catomMatch CAtom.dot)).length) = some []
      rw [dotMatch_all (c :: cs) hnl]
      show starRun (mseq []) prev (c :: cs) (cs.length + 1) = some []
      rw [starRun]
      have hd : (c :: cs).drop (cs.length + 1) = [] := List.drop_length (c :: cs)
      rw [hd]
      rfl

theorem mseq_lits_starDot (kw : List Char) :
    ∀ (s : List Char) (prev : Option Char), '\n' ∉ s →
      mseq (kw.map (fun c => RAtom.ch (CAtom.lit c)) ++ [ dotStar ]) prev s =
        if leadsWith kw s then some [] else none := by
  induction kw with
  | nil =>
      intro s prev hnl
      simp [leadsWith, mseq_starDot prev s hnl]
  | cons a kw ih =>
      intro s prev hnl
      cases s with
      | nil => simp [mseq, leadsWith]
      | cons c cs =>
          have hnl' : '\n' ∉ cs := fun h => hnl (List.mem_cons_of_mem c h)
          cases hac : (a == c) with
          | true => simp [mseq, catomMatch, hac, leadsWith, ih cs (some c) hnl']
          | false => simp [mseq, catomMatch, hac, leadsWith]

theorem starRun_lits (kw : List Char) (s : List Char) (hnl : '\n' ∉ s) (prev : Option Char) :
    ∀ k, starRun (mseq (kw.map (fun c => RAtom.ch (CAtom.lit c)) ++ [ dotStar ])) prev s k =
      if dropsContain kw s k then some [] else none := by
  intro k
  induction k with
  | zero =>
      show mseq (kw.map (fun c => RAtom.ch (CAtom.lit c)) ++ [ dotStar ]) prev s = _
      rw [mseq_lits_starDot kw s prev hnl]
      rfl
  | succ k ih =>
      have hnld : '\n' ∉ s.drop (k + 1) := fun h => hnl (List.drop_subset (k + 1) s h)
      rw [starRun, mseq_lits_starDot kw (s.drop (k + 1)) _ hnld]
      cases hlw : leadsWith kw (s.drop (k + 1)) with
      | true => simp [dropsContain, hlw]
      | false => simp [dropsContain, hlw, ih]

theorem dropsContain_cons (kw : List Char) (c : Char) (cs : List Char) :
    ∀ k, dropsContain kw (c :: cs) (k + 1) =
      (leadsWith kw (c :: cs) || dropsContain kw cs k) := by
  intro k
  induction k with
  | zero => simp [dropsContain, Bool.or_comm]
  | succ k ih =>
      show (leadsWith kw ((c :: cs).drop (k + 2)) || dropsContain kw (c :: cs) (k + 1)) = _
      rw [ih]
      show (leadsWith kw (cs.drop (k + 1)) || (leadsWith kw (c :: cs) || dropsContain kw cs k)) = _
      show _ = (leadsWith kw (c :: cs) || (leadsWith kw (cs.drop (k + 1)) || dropsContain kw cs k))
      rw [Bool.or_left_comm]

theorem dropsContain_length (kw : List Char) :
    ∀ s, dropsContain kw s s.length = containsSeq kw s := by
  intro s
  induction s with
  | nil => rfl
  | cons c cs ih =>
      show dropsContain kw (c :: cs) (cs.length + 1) = _
      rw [dropsContain_cons kw c cs cs.length, ih]
      rfl

theorem mseq_dotStar_kw (kw : List Char) (s : List Char) (prev : Option Char) (hnl : '\n' ∉ s) :
    mseq (dotStar :: (kw.map (fun c => RAtom.ch (CAtom.lit c)) ++ [ dotStar ])) prev s =
      if containsSeq kw s then some [] else none := by
  show starRun (mseq (kw.map (fun c => RAtom.ch (CAtom.lit c)) ++ [ dotStar ])) prev s
      ((s.takeWhile (catomMatch CAtom.dot)).length) = _
  rw [dotMatch_all s hnl, starRun_lits kw s hnl prev s.length, dropsContain_length kw s]

theorem containsSeq_nil_of_ne (kw : List Char) (hkw : kw ≠ []) : containsSeq kw [] = false := by
  cases kw with
  | nil => exact absurd rfl hkw
  | cons a as => rfl

theorem subFuel_dotStar_kw (kw rep : List Char) (hkw : kw ≠ []) :
    ∀ (n : Nat) (prev : Option Char) (s : List Char), s.length < n → '\n' ∉ s →
      subFuel (dotStar :: (kw.map (fun c => RAtom.ch (CAtom.lit c)) ++ [ dotStar ])) rep n prev s =
        if containsSeq kw s then rep else s := by
  intro n
  induction n with
  | zero => intro prev s h _; exact absurd h (Nat.not_lt_zero _)
  | succ m ih =>
      intro prev s hlen hnl
      cases s with
      | nil =>
          have hm : mseq (dotStar :: (kw.map (fun c => RAtom.ch (CAtom.lit c)) ++ [ dotStar ]))
              prev [] = none := by
            rw [mseq_dotStar_kw kw [] prev (by simp), containsSeq_nil_of_ne kw hkw]
            rfl
          simp [subFuel, hm, containsSeq_nil_of_ne kw hkw]
      | cons c cs =>
          have hnl' : '\n' ∉ cs := fun h => hnl (List.mem_cons_of_mem c h)
          have hm1 : 1 ≤ m := by
            have := hlen
            simp [List.length_cons] at this
            omega
          have hlen' : cs.length < m := by
            have := hlen
            simp [List.length_cons] at this
            omega
          cases hct : containsSeq kw (c :: cs) with
          | true =>
              have hm : mseq (dotStar :: (kw.map (fun c => RAtom.ch (CAtom.lit c)) ++ [ dotStar ]))
                  prev (c :: cs) = some [] := by
                rw [mseq_dotStar_kw kw (c :: cs) prev hnl, hct]
                rfl
              rw [subFuel, hm]
              simp only [List.length_nil, Nat.sub_zero, List.length_cons]
              rw [if_neg (Nat.succ_ne_zero cs.length)]
              rw [ih _ [] (by simp only [List.length_nil]; omega) (by simp),
                containsSeq_nil_of_ne kw hkw]
              simp [hct]
          | false =>
              have hm : mseq (dotStar :: (kw.map (fun c => RAtom.ch (CAtom.lit c)) ++ [ dotStar ]))
                  prev (c :: cs) = none := by
                rw [mseq_dotStar_kw kw (c :: cs) prev hnl, hct]
                rfl
              have hcs : containsSeq kw cs = false := by
                have h2 : (leadsWith kw (c :: cs) || containsSeq kw cs) = false := hct
                exact (Bool.or_eq_false_iff.mp h2).2
              rw [subFuel, hm, ih (some c) cs hlen' hnl', hcs]
              simp [hct]

theorem applySub_dotStar_kw (kw rep : List Char) (hkw : kw ≠ []) (s : List Char)
    (hnl : '\n' ∉ s) :
    applySub (dotStar :: (kw.map (fun c => RAtom.ch (CAtom.lit c)) ++ [ dotStar ])) rep s =
      if containsSeq kw s then rep else s :=
  subFuel_dotStar_kw kw rep hkw (s.length + 1) none s (Nat.lt_succ_self _) hnl

theorem ratingList (t : List Char) (hnl : '\n' ∉ t) :
    (containsSeq "developing".data t = true →
      List.foldl (fun acc pr => applySub pr.1 pr.2.data acc) t replacements_performance_rating =
        "1-developing".data) ∧
    (containsSeq "developing".data t = false → containsSeq "successful".data t = true →
      List.foldl (fun acc pr => applySub pr.1 pr.2.data acc) t replacements_performance_rating =
        "2-successful".data) ∧
    (containsSeq "developing".data t = false → containsSeq "successful".data t = false →
      containsSeq "high".data t = true →
      List.foldl (fun acc pr => applySub pr.1 pr.2.data acc) t replacements_performance_rating =
        "3-high".data) ∧
    (containsSeq "developing".data t = false → containsSeq "successful".data t = false →
      containsSeq "high".data t = false → containsSeq "top".data t = true →
      List.foldl (fun acc pr => applySub pr.1 pr.2.data acc) t replacements_performance_rating =
        "4-top".data) ∧
    (containsSeq "developing".data t = false → containsSeq "successful".data t = false →
      containsSeq "high".data t = false → containsSeq "top".data t = false →
      List.foldl (fun acc pr => applySub pr.1 pr.2.data acc) t replacements_performance_rating =
        t) := by
  have e : List.foldl (fun acc pr => applySub pr.1 pr.2.data acc) t
      replacements_performance_rating =
      applySub (dotStar :: ("top".data.map (fun c => RAtom.ch (CAtom.lit c)) ++ [ dotStar ]))
        "4-top".data
        (applySub (dotStar :: ("high".data.map (fun c => RAtom.ch (CAtom.lit c)) ++ [ dotStar ]))
          "3-high".data
          (applySub
            (dotStar :: ("successful".data.map (fun c => RAtom.ch (CAtom.lit c)) ++ [ dotStar ]))
            "2-successful".data
            (applySub
              (dotStar :: ("developing".data.map (fun c => RAtom.ch (CAtom.lit c)) ++ [ dotStar ]))
              "1-developing".data t))) := rfl
  refine ⟨?_, ?_, ?_, ?_, ?_⟩
  · intro h1
    rw [e, applySub_dotStar_kw "developing".data "1-developing".data (by decide) t hnl,
      if_pos h1]
    decide
  · intro h1 h2
    rw [e, applySub_dotStar_kw "developing".data "1-developing".data (by decide) t hnl,
      if_neg (by simp [h1]),
      applySub_dotStar_kw "successful".data "2-successful".data (by decide) t hnl,
      if_pos h2]
    decide
  · intro h1 h2 h3
    rw [e, applySub_dotStar_kw "developing".data "1-developing".data (by decide) t hnl,
      if_neg (by simp [h1]),
      applySub_dotStar_kw "successful".data "2-successful".data (by decide) t hnl,
      if_neg (by simp [h2]),
      applySub_dotStar_kw "high".data "3-high".data (by decide) t hnl,
      if_pos h3]
    decide
  · intro h1 h2 h3 h4
    rw [e, applySub_dotStar_kw "developing".data "1-developing".data (by decide) t hnl,
      if_neg (by simp [h1]),
      applySub_dotStar_kw "successful".data "2-successful".data (by decide) t hnl,
      if_neg (by simp [h2]),
      applySub_dotStar_kw "high".data "3-high".data (by decide) t hnl,
      if_neg (by simp [h3]),
      applySub_dotStar_kw "top".data "4-top".data (by decide) t hnl,
      if_pos h4]
  · intro h1 h2 h3 h4
    rw [e, applySub_dotStar_kw "developing".data "1-developing".data (by decide) t hnl,
      if_neg (by simp [h1]),
      applySub_dotStar_kw "successful".data "2-successful".data (by decide) t hnl,
      if_neg (by simp [h2]),
      applySub_dotStar_kw "high".data "3-high".data (by decide) t hnl,
      if_neg (by simp [h3]),
      applySub_dotStar_kw "top".data "4-top".data (by decide) t hnl,
      if_neg (by simp [h4])]

/-- C5: on every newline-free lowercased rating string, the Rating
Normalizer maps a string containing the keyword `developing` to
`1-developing`; one containing `successful` (and not `developing`) to
`2-successful`; one containing `high` (and neither earlier keyword) to
`3-high`; one containing `top` (and no earlier keyword) to `4-top`; and it
leaves a string containing none of the four keywords unchanged. In
particular a string containing exactly one keyword gets its ranked label. -/
theorem rating_keyword_mapping (s : String) (hnl : '\n' ∉ s.data) :
    (containsSeq "developing".data s.data = true →
      replace_terms replacements_performance_rating s = "1-developing") ∧
    (containsSeq "developing".data s.data = false →
      containsSeq "successful".data s.data = true →
      replace_terms replacements_performance_rating s = "2-successful") ∧
    (containsSeq "developing".data s.data = false →
      containsSeq "successful".data s.data = false →
      containsSeq "high".data s.data = true →
      replace_terms replacements_performance_rating s = "3-high") ∧
    (containsSeq "developing".data s.data = false →
      containsSeq "successful".data s.data = false →
      containsSeq "high".data s.data = false → containsSeq "top".data s.data = true →
      replace_terms replacements_performance_rating s = "4-top") ∧
    (containsSeq "developing".data s.data = false →
      containsSeq "successful".data s.data = false →
      containsSeq "high".data s.data = false → containsSeq "top".data s.data = false →
      replace_terms replacements_performance_rating s = s) := by
  obtain ⟨g1, g2, g3, g4, g5⟩ := ratingList s.data hnl
  have u : replace_terms replacements_performance_rating s =
      String.mk (List.foldl (fun acc pr => applySub pr.1 pr.2.data acc) s.data
        replacements_performance_rating) := rfl
  refine ⟨?_, ?_, ?_, ?_, ?_⟩
  · intro h1
    rw [u, g1 h1]
  · intro h1 h2
    rw [u, g2 h1 h2]
  · intro h1 h2 h3
    rw [u, g3 h1 h2 h3]
  · intro h1 h2 h3 h4
    rw [u, g4 h1 h2 h3 h4]
  · intro h1 h2 h3 h4
    rw [u, g5 h1 h2 h3 h4]

/-- C5 witness: `top performer` contains exactly the keyword `top` and is
normalized to `4-top`. -/
theorem rating_keyword_mapping_witness :
    replace_terms replacements_performance_rating "top performer" = "4-top" :=
  (rating_keyword_mapping "top performer" (by decide)).2.2.2.1
    (by decide) (by decide) (by decide) (by decide)
